import Mathlib

/-!
The lifecycle of `HttpServer` in collector/server.

A shallow embedding of `src/collector/server/server.go`.

* Go pointers are values of `Ptr`: `nil` or a reference to a value.
* A Go function that can dereference nil returns a `Result`: a value or a panic.
* `Run` starts a goroutine that blocks inside `ListenAndServe`; the goroutine is
  a small state (`Bg`), and the interleavings of the caller with the goroutines
  are sequences of `Step`s on a `World`.
* What `ListenAndServe` and `Shutdown` return is chosen by the environment: it
  is a parameter of the step that makes the call return.
* The calls made on the collaborators (`http.Server`, `zap.Logger`) are
  recorded in a trace of `Event`s.
-/

/-- Go pointer: nil, or a reference to a value. -/
inductive Ptr (α : Type) where
  | nil : Ptr α
  | ref (v : α) : Ptr α
deriving DecidableEq, Repr

/-- Value of `time.Duration`: a signed count of nanoseconds. -/
abbrev Duration := Int

/-- A non-nil Go error value, identified by its message. -/
structure Error where
  text : String
deriving DecidableEq, Repr

/-- Go interface value `error`: nil or an error. -/
abbrev error := Ptr Error

/-- The target of a `*gin.Engine`: a handler, known by its identity only. -/
structure gin.Engine where
  id : Nat
deriving DecidableEq, Repr

/-- What `logger.Fatal` does once the entry is written, as the logger was
built: zap ends the process with `os.Exit(1)` unless a fatal hook was given,
which can panic, end the calling goroutine, or hand control back. -/
inductive zap.FatalHook where
  | exits | panics | goexits | returns
deriving DecidableEq, Repr

/-- The target of a `*zap.Logger`: a diagnostic sink, with its fatal hook. -/
structure zap.Logger where
  id : Nat
  onFatal : zap.FatalHook
deriving DecidableEq, Repr

/-- The fields of `http.Server` that `New` fills in. -/
structure http.Server where
  Addr : String
  Handler : Ptr gin.Engine
deriving DecidableEq, Repr

/-- Severity levels of zapcore, lowest first. -/
inductive Level where
  | DebugLevel | InfoLevel | WarnLevel | ErrorLevel | DPanicLevel | PanicLevel | FatalLevel
deriving DecidableEq, Repr

/-- Position of a level in the severity order of zapcore. -/
def Level.rank : Level → Nat
  | .DebugLevel => 0
  | .InfoLevel => 1
  | .WarnLevel => 2
  | .ErrorLevel => 3
  | .DPanicLevel => 4
  | .PanicLevel => 5
  | .FatalLevel => 6

/-- A call made on a collaborator. -/
inductive Event where
  | listenAndServe (srv : http.Server)
  | shutdown (srv : http.Server) (timeout : Duration)
  | log (lg : zap.Logger) (lvl : Level) (msg : String) (err : Error)
deriving DecidableEq, Repr

/-- The event is a diagnostic entry handed to a logger. -/
def Event.isLog : Event → Bool
  | .log _ _ _ _ => true
  | _ => false

/-- The event is a call on the underlying `http.Server`. -/
def Event.isServerCall : Event → Bool
  | .listenAndServe _ => true
  | .shutdown _ _ => true
  | .log _ _ _ _ => false

/-- A Go call either returns a value or panics (nil pointer dereference). -/
inductive Result (α : Type) where
  | ret (v : α) : Result α
  | panicked : Result α
deriving DecidableEq, Repr

namespace server

/-- Go `type Option struct { Addr string; ShutdownTimeout time.Duration }`. -/
structure Option where
  Addr : String
  ShutdownTimeout : Duration
deriving DecidableEq, Repr

/-- Go `type HttpServer struct`; the channels `stop` and `done` are never made. -/
structure HttpServer where
  option : Ptr Option
  server : Ptr http.Server
  running : Bool
  engine : Ptr gin.Engine
  logger : Ptr zap.Logger
  stop : Ptr Unit
  done : Ptr Unit
deriving DecidableEq, Repr

/-- The zero value `&HttpServer{}`. -/
def HttpServer.zero : HttpServer :=
  ⟨.nil, .nil, false, .nil, .nil, .nil, .nil⟩

/-- Go `type Setter func(server *HttpServer) error`: the instance after the
call and the error returned. -/
abbrev Setter := HttpServer → HttpServer × error

/-- Go `WithLogger`. -/
def WithLogger (logger : Ptr zap.Logger) : Setter :=
  fun server => ({ server with logger := logger }, .nil)

/-- Go `WithOption`. -/
def WithOption (option : Ptr Option) : Setter :=
  fun server => ({ server with option := option }, .nil)

/-- Go `WithEngine`. -/
def WithEngine (engine : Ptr gin.Engine) : Setter :=
  fun server => ({ server with engine := engine }, .nil)

/-- State of the setter loop of `New` when it is left. -/
structure Applied where
  s : HttpServer
  err : error
  called : Nat
deriving DecidableEq, Repr

/-- The loop `for _, setter := range setters` of `New`: each setter is called
on the instance in turn; the first non-nil error leaves the loop. `called`
counts the setters that were called. -/
def applySetters : List Setter → HttpServer → Applied
  | [], s => ⟨s, .nil, 0⟩
  | setter :: rest, s =>
    match setter s with
    | (s1, .ref e) => ⟨s1, .ref e, 1⟩
    | (s1, .nil) =>
      let r := applySetters rest s1
      ⟨r.s, r.err, r.called + 1⟩

/-- Go `New`: the pair returned, or a panic where `s.option` is nil at
`s.option.Addr`. -/
def New (setters : List Setter) : Result (Ptr HttpServer × error) :=
  let r := applySetters setters HttpServer.zero
  match r.err with
  | .ref e => .ret (.nil, .ref e)
  | .nil =>
    match r.s.option with
    | .nil => .panicked
    | .ref o =>
      if o.Addr = "" then .ret (.nil, .ref ⟨"no addr provided"⟩)
      else
        match r.s.engine with
        | .nil => .ret (.nil, .ref ⟨"no engine provided"⟩)
        | .ref e => .ret (.ref { r.s with server := .ref ⟨o.Addr, .ref e⟩ }, .nil)

/-- Go `Running`. -/
def Running : Ptr HttpServer → Bool
  | .nil => false
  | .ref s => s.running

/-- How a call of `Close` ends: it returns; the process ends inside
`logger.Fatal` (`os.Exit(1)`); it panics, on a nil pointer or by the fatal
hook; or the calling goroutine ends inside `logger.Fatal`. -/
inductive Outcome where
  | returned | fatal | panicked | goexit
deriving DecidableEq, Repr

/-- What a call of `Close` leaves: the instance, the calls it made, how it ended. -/
structure Closed where
  s : Ptr HttpServer
  events : List Event
  outcome : Outcome
deriving DecidableEq, Repr

/-- Go `Close`; `shutdownErr` is what `s.server.Shutdown(ctx)` returns. After
`s.logger.Fatal` the statement `s.running = false` runs only when the fatal
hook of the logger hands control back. -/
def Close : Ptr HttpServer → error → Closed
  | .nil, _ => ⟨.nil, [], .returned⟩
  | .ref s, shutdownErr =>
    match s.option with
    | .nil => ⟨.ref s, [], .panicked⟩
    | .ref o =>
      match s.server with
      | .nil => ⟨.ref s, [], .panicked⟩
      | .ref srv =>
        match shutdownErr with
        | .nil => ⟨.ref { s with running := false }, [.shutdown srv o.ShutdownTimeout], .returned⟩
        | .ref e =>
          match s.logger with
          | .nil => ⟨.ref s, [.shutdown srv o.ShutdownTimeout], .panicked⟩
          | .ref lg =>
            match lg.onFatal with
            | .exits =>
              ⟨.ref s, [.shutdown srv o.ShutdownTimeout,
                        .log lg .FatalLevel "listen and serve err" e], .fatal⟩
            | .panics =>
              ⟨.ref s, [.shutdown srv o.ShutdownTimeout,
                        .log lg .FatalLevel "listen and serve err" e], .panicked⟩
            | .goexits =>
              ⟨.ref s, [.shutdown srv o.ShutdownTimeout,
                        .log lg .FatalLevel "listen and serve err" e], .goexit⟩
            | .returns =>
              ⟨.ref { s with running := false },
               [.shutdown srv o.ShutdownTimeout,
                .log lg .FatalLevel "listen and serve err" e], .returned⟩

/-- The goroutine started by `Run`. -/
inductive Bg where
  /-- inside `s.server.ListenAndServe()`, which has not returned; `accepting`
  once the listener is bound and the accept loop entered -/
  | listening (srv : http.Server) (accepting : Bool)
  /-- after `ListenAndServe` returned `err`; `if err == nil` is next -/
  | returned (err : error)
  /-- the closure has ended -/
  | finished
  /-- nil pointer dereference at `s.server.ListenAndServe()` -/
  | crashed
deriving DecidableEq, Repr

/-- Go `Run`: the goroutine it starts, at its call of `ListenAndServe`. -/
def Run : Ptr HttpServer → Bg
  | .nil => .crashed
  | .ref s =>
    match s.server with
    | .nil => .crashed
    | .ref srv => .listening srv false

/-- The rest of the closure of `Run` once `ListenAndServe` has returned `err`:
`if err == nil { s.running = true }`. -/
def Run.resume (s : HttpServer) : error → HttpServer
  | .nil => { s with running := true }
  | .ref _ => s

/-- The process: running, ended inside `logger.Fatal`, or crashed by a panic. A
goroutine that ends inside `logger.Fatal` leaves the process running. -/
inductive Status where
  | alive | exited | crashed
deriving DecidableEq, Repr

/-- An instance together with its goroutines and the calls made so far. -/
structure World where
  s : HttpServer
  bg : List Bg
  trace : List Event
  status : Status
deriving DecidableEq, Repr

/-- The world right after `New` returned `s`. -/
def World.init (s : HttpServer) : World :=
  ⟨s, [], [], .alive⟩

/-- One move of the caller or of the scheduler. -/
inductive Step where
  /-- the caller calls `s.Run()` -/
  | run
  /-- the listener of goroutine `i` is bound and enters its accept loop -/
  | bgBound (i : Nat)
  /-- in goroutine `i`, `ListenAndServe` returns `err` -/
  | bgReturn (i : Nat) (err : error)
  /-- goroutine `i` runs `if err == nil { s.running = true }` and ends -/
  | bgFinish (i : Nat)
  /-- the caller calls `s.Close()`, in which `Shutdown` returns `shutdownErr` -/
  | close (shutdownErr : error)
  /-- the caller calls `s.Running()` -/
  | running
deriving DecidableEq, Repr

/-- The instance a `Closed` leaves, `s` itself for a nil one. -/
def Closed.inst (c : Closed) (s : HttpServer) : HttpServer :=
  match c.s with
  | .nil => s
  | .ref s1 => s1

/-- Effect of one step; a process that has ended makes no step. -/
def World.step (w : World) (st : Step) : World :=
  match w.status with
  | .exited => w
  | .crashed => w
  | .alive =>
    match st with
    | .run =>
      match Run (.ref w.s) with
      | .listening srv a =>
        { w with bg := w.bg ++ [.listening srv a], trace := w.trace ++ [.listenAndServe srv] }
      | g => { w with bg := w.bg ++ [g], status := .crashed }
    | .bgBound i =>
      match w.bg[i]? with
      | some (.listening srv _) => { w with bg := w.bg.set i (.listening srv true) }
      | _ => w
    | .bgReturn i err =>
      match w.bg[i]? with
      | some (.listening _ _) => { w with bg := w.bg.set i (.returned err) }
      | _ => w
    | .bgFinish i =>
      match w.bg[i]? with
      | some (.returned err) => { w with s := Run.resume w.s err, bg := w.bg.set i .finished }
      | _ => w
    | .close shutdownErr =>
      let c := Close (.ref w.s) shutdownErr
      { w with
        s := c.inst w.s
        trace := w.trace ++ c.events
        status := match c.outcome with
          | .returned => .alive
          | .fatal => .exited
          | .panicked => .crashed
          | .goexit => .alive }
    | .running => w

/-- Effect of a sequence of steps, left to right. -/
def World.steps (w : World) (sts : List Step) : World :=
  sts.foldl World.step w

/-- A configuration with an address chosen by the system and a 2s timeout. -/
def sampleOption : Option := ⟨"127.0.0.1:0", 2000000000⟩

/-- A handler. -/
def sampleEngine : gin.Engine := ⟨1⟩

/-- A diagnostic sink. -/
def sampleLogger : zap.Logger := ⟨7, .exits⟩

/-- The setters of a full configuration: option, engine and logger. -/
def sampleSetters : List Setter :=
  [WithOption (.ref sampleOption), WithEngine (.ref sampleEngine), WithLogger (.ref sampleLogger)]

/-- The instance `New` returns for `sampleSetters`. -/
def sampleServer : HttpServer :=
  ⟨.ref sampleOption, .ref ⟨"127.0.0.1:0", .ref sampleEngine⟩, false, .ref sampleEngine,
   .ref sampleLogger, .nil, .nil⟩

/-- A setter that sets the engine and then fails. -/
def failingSetter (e : Error) : Setter :=
  fun server => ({ server with engine := .ref sampleEngine }, .ref e)

/-- Two instances agree on every field but the liveness flag. -/
def SameConfig (a b : HttpServer) : Prop :=
  a.option = b.option ∧ a.server = b.server ∧ a.engine = b.engine ∧
  a.logger = b.logger ∧ a.stop = b.stop ∧ a.done = b.done

/-- No goroutine is about to find that `ListenAndServe` returned nil. -/
def NoNilReturn (bg : List Bg) : Prop :=
  ∀ g ∈ bg, g ≠ Bg.returned .nil

/-- The step is a return of `ListenAndServe` with a nil error. -/
def Step.isNilReturn : Step → Bool
  | .bgReturn _ .nil => true
  | _ => false

/-- The steps of a bind failure: `Run`, then `ListenAndServe` returns `e` in the
goroutine, then the goroutine runs to its end. -/
def bindFailure (e : Error) : List Step :=
  [.run, .bgReturn 0 (.ref e), .bgFinish 0]

/-- The error of a listener whose address is taken. -/
def addrInUse : Error := ⟨"listen tcp 127.0.0.1:0: bind: address already in use"⟩

/-- The error of a shutdown that ran out of time. -/
def deadlineExceeded : Error := ⟨"context deadline exceeded"⟩

/-- The setters of a configuration with a negative timeout and no logger. -/
def hastySetters : List Setter :=
  [WithOption (.ref ⟨"127.0.0.1:0", -5⟩), WithEngine (.ref sampleEngine)]

/-- The instance `New` returns for `hastySetters`. -/
def hastyServer : HttpServer :=
  ⟨.ref ⟨"127.0.0.1:0", -5⟩, .ref ⟨"127.0.0.1:0", .ref sampleEngine⟩, false, .ref sampleEngine,
   .nil, .nil, .nil⟩

/-- The error `ListenAndServe` returns after a shutdown. -/
def errServerClosed : Error := ⟨"http: Server closed"⟩

/-- A life of an instance: run, serve, poll, close, the listener returns, the
goroutine ends, and a second run whose listener fails. -/
def sampleLife : List Step :=
  [.run, .bgBound 0, .running, .close .nil, .bgReturn 0 (.ref errServerClosed), .bgFinish 0,
   .running, .run, .bgReturn 1 (.ref addrInUse), .bgFinish 1, .close .nil]

/-- A setter that leaves the unexported field `running` as it found it. -/
def KeepsRunning (f : Setter) : Prop :=
  ∀ s, (f s).1.running = s.running

end server

namespace server

/-! Facts about the setter loop and `New`. -/

theorem applySetters_append_ok (pre post : List Setter) (s : HttpServer)
    (h : (applySetters pre s).err = .nil) :
    applySetters (pre ++ post) s =
      ⟨(applySetters post (applySetters pre s).s).s,
       (applySetters post (applySetters pre s).s).err,
       (applySetters post (applySetters pre s).s).called + pre.length⟩ := by
  induction pre generalizing s with
  | nil => simp [applySetters]
  | cons f fs ih =>
    simp only [List.cons_append, applySetters] at h ⊢
    rcases hf : f s with ⟨s1, e1⟩
    cases e1 with
    | ref e => simp [hf] at h
    | nil =>
      simp only [hf] at h ⊢
      have hrec := ih s1 h
      simp only [List.append_eq] at hrec ⊢
      rw [hrec]
      simp [Nat.add_assoc]

theorem applySetters_ok_called (setters : List Setter) (s : HttpServer)
    (h : (applySetters setters s).err = .nil) :
    (applySetters setters s).called = setters.length := by
  induction setters generalizing s with
  | nil => simp [applySetters]
  | cons f fs ih =>
    simp only [applySetters] at h ⊢
    rcases hf : f s with ⟨s1, e1⟩
    cases e1 with
    | ref e => simp [hf] at h
    | nil =>
      simp only [hf] at h ⊢
      simp [ih s1 h]

theorem applySetters_keeps_running (setters : List Setter) (s : HttpServer)
    (hk : ∀ f ∈ setters, KeepsRunning f) :
    (applySetters setters s).s.running = s.running := by
  induction setters generalizing s with
  | nil => simp [applySetters]
  | cons f fs ih =>
    have hf1 := hk f (List.mem_cons_self f fs) s
    simp only [applySetters]
    rcases hf : f s with ⟨s1, e1⟩
    rw [hf] at hf1
    cases e1 with
    | ref e => simpa using hf1
    | nil =>
      simp only
      rw [ih s1 (fun g hg => hk g (List.mem_cons_of_mem f hg))]
      simpa using hf1

theorem WithLogger_keepsRunning (l : Ptr zap.Logger) : KeepsRunning (WithLogger l) :=
  fun _ => rfl

theorem WithOption_keepsRunning (o : Ptr Option) : KeepsRunning (WithOption o) :=
  fun _ => rfl

theorem WithEngine_keepsRunning (e : Ptr gin.Engine) : KeepsRunning (WithEngine e) :=
  fun _ => rfl

/-- What a successful `New` tells about the instance it returns. -/
theorem New_ok_inv (setters : List Setter) (s : HttpServer) (err : error)
    (h : New setters = .ret (.ref s, err)) :
    ∃ o e, (applySetters setters HttpServer.zero).err = .nil ∧
      (applySetters setters HttpServer.zero).s.option = .ref o ∧ o.Addr ≠ "" ∧
      (applySetters setters HttpServer.zero).s.engine = .ref e ∧
      s.option = .ref o ∧ s.engine = .ref e ∧
      s.server = .ref ⟨o.Addr, .ref e⟩ ∧
      s.running = (applySetters setters HttpServer.zero).s.running ∧
      s.logger = (applySetters setters HttpServer.zero).s.logger ∧
      s.stop = (applySetters setters HttpServer.zero).s.stop ∧
      s.done = (applySetters setters HttpServer.zero).s.done ∧
      err = .nil := by
  unfold New at h
  simp only at h
  cases herr : (applySetters setters HttpServer.zero).err with
  | ref e => simp [herr] at h
  | nil =>
    simp only [herr] at h
    cases hopt : (applySetters setters HttpServer.zero).s.option with
    | nil => simp [hopt] at h
    | ref o =>
      simp only [hopt] at h
      by_cases ha : o.Addr = ""
      · simp [ha] at h
      · simp only [ha, if_false] at h
        cases heng : (applySetters setters HttpServer.zero).s.engine with
        | nil => simp [heng] at h
        | ref e =>
          simp only [heng] at h
          injection h with h
          injection h with h1 h2
          injection h1 with h1
          subst h1
          exact ⟨o, e, rfl, rfl, ha, rfl, rfl, rfl, rfl, rfl, rfl, rfl, rfl, h2.symm⟩

end server

namespace server

/-! The builder `New`. -/

theorem New_sampleSetters : New sampleSetters = .ret (.ref sampleServer, .nil) := by
  decide

/-- C3: when all setters succeed and leave a non-nil Option whose Addr is the
empty string, `New` returns a nil instance and the non-nil error
"no addr provided", whatever the engine, the logger and the timeout are. -/
theorem New_empty_addr (setters : List Setter) (o : Option)
    (hok : (applySetters setters HttpServer.zero).err = .nil)
    (hopt : (applySetters setters HttpServer.zero).s.option = .ref o)
    (haddr : o.Addr = "") :
    New setters = .ret (.nil, .ref ⟨"no addr provided"⟩) := by
  simp [New, hok, hopt, haddr]

theorem New_empty_addr_witness :
    New [WithEngine (.ref sampleEngine), WithOption (.ref ⟨"", 5⟩)]
      = .ret (.nil, .ref ⟨"no addr provided"⟩) :=
  New_empty_addr [WithEngine (.ref sampleEngine), WithOption (.ref ⟨"", 5⟩)] ⟨"", 5⟩ rfl rfl rfl

/-- C4 (the code at the failing inputs): with no setter, with only an engine,
and with `WithOption(nil)`, the option pointer is nil when `New` reads
`s.option.Addr`, and `New` panics instead of returning an error. -/
theorem New_without_option_panics :
    New [] = .panicked ∧
    New [WithEngine (.ref sampleEngine)] = .panicked ∧
    New [WithOption .nil] = .panicked ∧
    New [WithOption .nil, WithEngine (.ref sampleEngine), WithLogger (.ref sampleLogger)]
      = .panicked := by
  refine ⟨rfl, rfl, rfl, rfl⟩

/-- C5: when all setters succeed and leave a non-nil Option with a non-empty
Addr but a nil engine, `New` returns a nil instance and the non-nil error
"no engine provided". -/
theorem New_nil_engine (setters : List Setter) (o : Option)
    (hok : (applySetters setters HttpServer.zero).err = .nil)
    (hopt : (applySetters setters HttpServer.zero).s.option = .ref o)
    (haddr : o.Addr ≠ "")
    (heng : (applySetters setters HttpServer.zero).s.engine = .nil) :
    New setters = .ret (.nil, .ref ⟨"no engine provided"⟩) := by
  simp [New, hok, hopt, haddr, heng]

theorem New_nil_engine_witness :
    New [WithOption (.ref sampleOption), WithEngine .nil]
      = .ret (.nil, .ref ⟨"no engine provided"⟩) :=
  New_nil_engine [WithOption (.ref sampleOption), WithEngine .nil] sampleOption rfl rfl
    (by decide) rfl

/-- C6: when the setters `pre` all succeed, applied left to right to the zero
instance, and the next setter `f` fails with `e` on the instance they leave,
then `New (pre ++ f :: post)` returns a nil instance and exactly `e`; the loop
has called `pre.length + 1` setters, so none of `post`, and it stops on the
instance `f` left. The result does not depend on that instance, so no address
or engine check is made on it (with a nil option the check would panic). -/
theorem New_first_error (pre post : List Setter) (f : Setter) (s1 : HttpServer) (e : Error)
    (hpre : (applySetters pre HttpServer.zero).err = .nil)
    (hf : f (applySetters pre HttpServer.zero).s = (s1, .ref e)) :
    New (pre ++ f :: post) = .ret (.nil, .ref e) ∧
    (applySetters (pre ++ f :: post) HttpServer.zero).called = pre.length + 1 ∧
    (applySetters (pre ++ f :: post) HttpServer.zero).s = s1 ∧
    New (pre ++ f :: post) = New (pre ++ [f]) := by
  have key : ∀ rest : List Setter,
      applySetters (pre ++ f :: rest) HttpServer.zero = ⟨s1, .ref e, 1 + pre.length⟩ := by
    intro rest
    rw [applySetters_append_ok pre (f :: rest) HttpServer.zero hpre]
    simp [applySetters, hf]
  refine ⟨?_, ?_, ?_, ?_⟩
  · simp [New, key post]
  · simp [key post, Nat.add_comm]
  · simp [key post]
  · simp [New, key post, key []]

theorem New_first_error_witness :
    New ([WithLogger (.ref sampleLogger)] ++ failingSetter ⟨"boom"⟩ :: [WithOption .nil])
        = .ret (.nil, .ref ⟨"boom"⟩) ∧
    (applySetters ([WithLogger (.ref sampleLogger)] ++ failingSetter ⟨"boom"⟩ ::
        [WithOption .nil]) HttpServer.zero).called = [WithLogger (.ref sampleLogger)].length + 1 ∧
    (applySetters ([WithLogger (.ref sampleLogger)] ++ failingSetter ⟨"boom"⟩ ::
        [WithOption .nil]) HttpServer.zero).s
        = ⟨.nil, .nil, false, .ref sampleEngine, .ref sampleLogger, .nil, .nil⟩ ∧
    New ([WithLogger (.ref sampleLogger)] ++ failingSetter ⟨"boom"⟩ :: [WithOption .nil])
        = New ([WithLogger (.ref sampleLogger)] ++ [failingSetter ⟨"boom"⟩]) :=
  New_first_error [WithLogger (.ref sampleLogger)] [WithOption .nil] (failingSetter ⟨"boom"⟩)
    ⟨.nil, .nil, false, .ref sampleEngine, .ref sampleLogger, .nil, .nil⟩ ⟨"boom"⟩ rfl rfl

/-- C7: when all setters succeed, none of them touches the unexported flag
`running`, and they leave a non-nil Option with a non-empty Addr and a non-nil
engine, `New` returns a nil error and an instance whose server is non-nil with
`server.Addr = option.Addr` and `server.Handler = engine`, whose option,
engine and logger are the ones the setters left (a nil logger included), and
whose liveness flag is false. -/
theorem New_success (setters : List Setter) (o : Option) (e : gin.Engine)
    (hk : ∀ f ∈ setters, KeepsRunning f)
    (hok : (applySetters setters HttpServer.zero).err = .nil)
    (hopt : (applySetters setters HttpServer.zero).s.option = .ref o)
    (haddr : o.Addr ≠ "")
    (heng : (applySetters setters HttpServer.zero).s.engine = .ref e) :
    ∃ s, New setters = .ret (.ref s, .nil) ∧
      s.server = .ref ⟨o.Addr, .ref e⟩ ∧ s.option = .ref o ∧ s.engine = .ref e ∧
      s.logger = (applySetters setters HttpServer.zero).s.logger ∧
      s.running = false ∧ Running (.ref s) = false := by
  have hrun := applySetters_keeps_running setters HttpServer.zero hk
  refine ⟨{ (applySetters setters HttpServer.zero).s with server := .ref ⟨o.Addr, .ref e⟩ },
    ?_, rfl, hopt, heng, rfl, ?_, ?_⟩
  · simp [New, hok, hopt, haddr, heng]
  · simpa [HttpServer.zero] using hrun
  · simpa [Running, HttpServer.zero] using hrun

theorem New_success_witness :
    ∃ s, New [WithOption (.ref sampleOption), WithEngine (.ref sampleEngine)]
        = .ret (.ref s, .nil) ∧
      s.server = .ref ⟨sampleOption.Addr, .ref sampleEngine⟩ ∧ s.option = .ref sampleOption ∧
      s.engine = .ref sampleEngine ∧
      s.logger = (applySetters [WithOption (.ref sampleOption), WithEngine (.ref sampleEngine)]
        HttpServer.zero).s.logger ∧
      s.running = false ∧ Running (.ref s) = false :=
  New_success [WithOption (.ref sampleOption), WithEngine (.ref sampleEngine)]
    sampleOption sampleEngine
    (by
      intro f hf
      simp only [List.mem_cons, List.mem_singleton, List.not_mem_nil, or_false] at hf
      rcases hf with rfl | rfl
      · exact WithOption_keepsRunning _
      · exact WithEngine_keepsRunning _)
    rfl rfl (by decide) rfl

end server

namespace server

/-! Facts about `Close` and the steps of a world. -/

theorem SameConfig.refl (a : HttpServer) : SameConfig a a :=
  ⟨rfl, rfl, rfl, rfl, rfl, rfl⟩

theorem SameConfig.trans {a b c : HttpServer} (h1 : SameConfig a b) (h2 : SameConfig b c) :
    SameConfig a c :=
  ⟨h1.1.trans h2.1, h1.2.1.trans h2.2.1, h1.2.2.1.trans h2.2.2.1,
   h1.2.2.2.1.trans h2.2.2.2.1, h1.2.2.2.2.1.trans h2.2.2.2.2.1,
   h1.2.2.2.2.2.trans h2.2.2.2.2.2⟩

theorem SameConfig.eq_with {a b : HttpServer} (h : SameConfig a b) :
    a = { b with running := a.running } := by
  obtain ⟨a1, a2, a3, a4, a5, a6, a7⟩ := a
  obtain ⟨b1, b2, b3, b4, b5, b6, b7⟩ := b
  obtain ⟨h1, h2, h3, h4, h5, h6⟩ := h
  simp only at h1 h2 h3 h4 h5 h6
  subst h1 h2 h3 h4 h5 h6
  rfl

theorem Close_inst_sameConfig (s : HttpServer) (shutdownErr : error) :
    SameConfig ((Close (.ref s) shutdownErr).inst s) s := by
  obtain ⟨o, srv, r, e, l, c1, c2⟩ := s
  cases o <;> cases srv <;> cases shutdownErr <;> rcases l with _ | ⟨_, _ | _ | _ | _⟩ <;>
    exact ⟨rfl, rfl, rfl, rfl, rfl, rfl⟩

theorem Close_inst_running (s : HttpServer) (shutdownErr : error)
    (h : s.running = false) :
    ((Close (.ref s) shutdownErr).inst s).running = false := by
  obtain ⟨o, srv, r, e, l, c1, c2⟩ := s
  simp only at h
  subst h
  cases o <;> cases srv <;> cases shutdownErr <;> rcases l with _ | ⟨_, _ | _ | _ | _⟩ <;> rfl

theorem resume_sameConfig (s : HttpServer) (err : error) :
    SameConfig (Run.resume s err) s := by
  cases err <;> exact ⟨rfl, rfl, rfl, rfl, rfl, rfl⟩

theorem step_sameConfig (w : World) (st : Step) : SameConfig (w.step st).s w.s := by
  unfold World.step
  cases w.status with
  | exited => exact SameConfig.refl _
  | crashed => exact SameConfig.refl _
  | alive =>
    cases st with
    | run =>
      simp only
      cases Run (.ref w.s) <;> exact SameConfig.refl _
    | bgBound i =>
      simp only
      split <;> exact SameConfig.refl _
    | bgReturn i err =>
      simp only
      split <;> exact SameConfig.refl _
    | bgFinish i =>
      simp only
      split
      · exact resume_sameConfig _ _
      · exact SameConfig.refl _
    | close shutdownErr => exact Close_inst_sameConfig _ _
    | running => exact SameConfig.refl _

theorem steps_sameConfig (w : World) (sts : List Step) : SameConfig (w.steps sts).s w.s := by
  induction sts generalizing w with
  | nil => exact SameConfig.refl _
  | cons st rest ih =>
    have h := ih (w.step st)
    simp only [World.steps, List.foldl_cons] at h ⊢
    exact h.trans (step_sameConfig w st)

theorem NoNilReturn.set {bg : List Bg} (h : NoNilReturn bg) (i : Nat) (g : Bg)
    (hg : g ≠ Bg.returned .nil) : NoNilReturn (bg.set i g) := by
  intro x hx
  rcases List.mem_or_eq_of_mem_set hx with hx | hx
  · exact h x hx
  · exact hx ▸ hg

theorem NoNilReturn.append {bg : List Bg} (h : NoNilReturn bg) (g : Bg)
    (hg : g ≠ Bg.returned .nil) : NoNilReturn (bg ++ [g]) := by
  intro x hx
  rcases List.mem_append.mp hx with hx | hx
  · exact h x hx
  · rw [List.mem_singleton.mp hx]
    exact hg

/-- A step that is not a nil return of `ListenAndServe` keeps the flag false. -/
theorem step_flag_false (w : World) (st : Step) (hst : st.isNilReturn = false)
    (hflag : w.s.running = false) (hbg : NoNilReturn w.bg) :
    (w.step st).s.running = false ∧ NoNilReturn (w.step st).bg := by
  unfold World.step
  cases w.status with
  | exited => exact ⟨hflag, hbg⟩
  | crashed => exact ⟨hflag, hbg⟩
  | alive =>
    cases st with
    | run =>
      simp only
      cases hr : Run (.ref w.s) with
      | listening srv a => exact ⟨hflag, hbg.append _ (by simp)⟩
      | returned err =>
        unfold Run at hr
        cases hsrv : w.s.server <;> simp [hsrv] at hr
      | finished => exact ⟨hflag, hbg.append _ (by simp)⟩
      | crashed => exact ⟨hflag, hbg.append _ (by simp)⟩
    | bgBound i =>
      simp only
      split
      · exact ⟨hflag, hbg.set _ _ (by simp)⟩
      · exact ⟨hflag, hbg⟩
    | bgReturn i err =>
      simp only
      cases err with
      | nil => exact absurd hst (by simp [Step.isNilReturn])
      | ref e =>
        split
        · exact ⟨hflag, hbg.set _ _ (by simp)⟩
        · exact ⟨hflag, hbg⟩
    | bgFinish i =>
      simp only
      split
      · rename_i err hget
        have hmem : Bg.returned err ∈ w.bg := List.getElem?_mem hget
        cases err with
        | nil => exact absurd rfl (hbg _ hmem)
        | ref e => exact ⟨hflag, hbg.set _ _ (by simp)⟩
      · exact ⟨hflag, hbg⟩
    | close shutdownErr => exact ⟨Close_inst_running _ _ hflag, hbg⟩
    | running => exact ⟨hflag, hbg⟩

theorem steps_flag_false (w : World) (sts : List Step)
    (hsts : ∀ st ∈ sts, st.isNilReturn = false)
    (hflag : w.s.running = false) (hbg : NoNilReturn w.bg) :
    (w.steps sts).s.running = false := by
  induction sts generalizing w with
  | nil => exact hflag
  | cons st rest ih =>
    have h1 := step_flag_false w st (hsts st (List.mem_cons_self st rest)) hflag hbg
    have h := ih (w.step st) (fun x hx => hsts x (List.mem_cons_of_mem st hx)) h1.1 h1.2
    simpa only [World.steps, List.foldl_cons] using h

end server

namespace server

/-! The run path. -/

/-- C1 (the code at the failing input): the instance built from a full
configuration is run and its listener binds; the goroutine is then inside
`ListenAndServe`, serving, and the process is alive, yet `Running` returns
false: the assignment of true comes after the blocking call. -/
theorem Running_false_while_serving :
    New sampleSetters = .ret (.ref sampleServer, .nil) ∧
    ((World.init sampleServer).steps [.run, .bgBound 0]).bg
      = [.listening ⟨"127.0.0.1:0", .ref sampleEngine⟩ true] ∧
    ((World.init sampleServer).steps [.run, .bgBound 0]).status = .alive ∧
    Running (.ref ((World.init sampleServer).steps [.run, .bgBound 0]).s) = false := by
  decide

/-- C8 (counterexample): the instance built with a logger is run and
`ListenAndServe` fails with "address already in use"; when the goroutine has
ended, no diagnostic entry has been handed to the logger. -/
theorem bind_failure_not_reported :
    New sampleSetters = .ret (.ref sampleServer, .nil) ∧
    sampleServer.logger = .ref sampleLogger ∧
    ((World.init sampleServer).steps (bindFailure addrInUse)).bg = [.finished] ∧
    ¬ ∃ ev ∈ ((World.init sampleServer).steps (bindFailure addrInUse)).trace,
        ev.isLog = true := by
  decide

/-- C8 (amended): for every instance built by `New` with a logger, when `Run`
is called and `ListenAndServe` returns a non-nil error, the goroutine ends
having made no call but `ListenAndServe` itself: no diagnostic entry is
emitted, and the instance is left as it was. -/
theorem bind_failure_silent (setters : List Setter) (s : HttpServer) (lg : zap.Logger)
    (e : Error) (hnew : New setters = .ret (.ref s, .nil)) (hlg : s.logger = .ref lg) :
    ((World.init s).steps (bindFailure e)).bg = [.finished] ∧
    ((World.init s).steps (bindFailure e)).trace.filter Event.isLog = [] ∧
    (∃ srv, s.server = .ref srv ∧
      ((World.init s).steps (bindFailure e)).trace = [.listenAndServe srv]) ∧
    ((World.init s).steps (bindFailure e)).s = s ∧
    ((World.init s).steps (bindFailure e)).s.logger = .ref lg := by
  obtain ⟨o, en, -, -, -, -, -, -, hsrv, -⟩ := New_ok_inv setters s .nil hnew
  simp [bindFailure, World.steps, World.step, World.init, Run, hsrv, Run.resume, Event.isLog,
    hlg]

theorem bind_failure_silent_witness :
    ((World.init sampleServer).steps (bindFailure addrInUse)).bg = [.finished] ∧
    ((World.init sampleServer).steps (bindFailure addrInUse)).trace.filter Event.isLog = [] ∧
    (∃ srv, sampleServer.server = .ref srv ∧
      ((World.init sampleServer).steps (bindFailure addrInUse)).trace = [.listenAndServe srv]) ∧
    ((World.init sampleServer).steps (bindFailure addrInUse)).s = sampleServer ∧
    ((World.init sampleServer).steps (bindFailure addrInUse)).s.logger = .ref sampleLogger :=
  bind_failure_silent sampleSetters sampleServer sampleLogger addrInUse (by decide) rfl

/-- C9: for every instance built by `New` whose flag is false, when `Run` is
called and `ListenAndServe` returns a non-nil error, the goroutine runs to its
end, the process is alive, the instance is unchanged and `Running` returns
false. -/
theorem bind_failure_flag_false (setters : List Setter) (s : HttpServer) (e : Error)
    (hnew : New setters = .ret (.ref s, .nil)) (hflag : s.running = false) :
    ((World.init s).steps (bindFailure e)).bg = [.finished] ∧
    ((World.init s).steps (bindFailure e)).status = .alive ∧
    ((World.init s).steps (bindFailure e)).s = s ∧
    Running (.ref ((World.init s).steps (bindFailure e)).s) = false := by
  obtain ⟨o, en, -, -, -, -, -, -, hsrv, -⟩ := New_ok_inv setters s .nil hnew
  simp [bindFailure, World.steps, World.step, World.init, Run, hsrv, Run.resume, Running,
    hflag]

theorem bind_failure_flag_false_witness :
    ((World.init sampleServer).steps (bindFailure addrInUse)).bg = [.finished] ∧
    ((World.init sampleServer).steps (bindFailure addrInUse)).status = .alive ∧
    ((World.init sampleServer).steps (bindFailure addrInUse)).s = sampleServer ∧
    Running (.ref ((World.init sampleServer).steps (bindFailure addrInUse)).s) = false :=
  bind_failure_flag_false sampleSetters sampleServer addrInUse (by decide) rfl

end server

namespace server

/-! The shutdown path. In the statements below `{ s with running := b }` is the
instance returned by `New` at any later time: the lifecycle changes no field
but the flag. -/

/-- C2: for every instance built by `New` (from setters that do not touch the
unexported flag), in every state it reaches by `Run`, goroutine, `Running` and
`Close` steps in which `ListenAndServe` never returns a nil error, and for
every result of `Shutdown` (nil or any error) and every logger, nil included:
the state `Close` leaves behind has the flag false and `Running` returns false
on it, whether `Close` returns, panics or ends inside `logger.Fatal`; the same
holds of the world after the step of that `Close`. When `Shutdown` returns nil
`Close` returns. And whatever the flag was before, a `Close` that returns has
run the reset: the flag is false for every result of `Shutdown`. -/
theorem Close_leaves_flag_false (setters : List Setter) (s : HttpServer) (sts : List Step)
    (shutdownErr : error)
    (hk : ∀ f ∈ setters, KeepsRunning f)
    (hnew : New setters = .ret (.ref s, .nil))
    (hsts : ∀ st ∈ sts, st.isNilReturn = false) :
    (∃ s1, (Close (.ref ((World.init s).steps sts).s) shutdownErr).s = .ref s1 ∧
      s1.running = false) ∧
    Running (Close (.ref ((World.init s).steps sts).s) shutdownErr).s = false ∧
    Running (.ref ((World.init s).steps (sts ++ [.close shutdownErr])).s) = false ∧
    (shutdownErr = .nil →
      (Close (.ref ((World.init s).steps sts).s) shutdownErr).outcome = .returned) ∧
    ∀ b : Bool, (Close (.ref { s with running := b }) shutdownErr).outcome = .returned →
      Running (Close (.ref { s with running := b }) shutdownErr).s = false := by
  obtain ⟨o, en, -, -, -, -, hopt, -, hsrv, hrun, -⟩ := New_ok_inv setters s .nil hnew
  have hflag : s.running = false := by
    rw [hrun, applySetters_keeps_running setters HttpServer.zero hk]
    rfl
  have hnone : NoNilReturn (World.init s).bg := by
    intro g hg
    simp [World.init] at hg
  have hw := steps_flag_false (World.init s) sts hsts hflag hnone
  have hsame : SameConfig ((World.init s).steps sts).s s := steps_sameConfig (World.init s) sts
  have hopt2 : ((World.init s).steps sts).s.option = .ref o := hsame.1.trans hopt
  have hsrv2 : ((World.init s).steps sts).s.server = .ref ⟨o.Addr, .ref en⟩ :=
    hsame.2.1.trans hsrv
  have hsts2 : ∀ st ∈ sts ++ [Step.close shutdownErr], st.isNilReturn = false := by
    intro st hst
    rcases List.mem_append.mp hst with h | h
    · exact hsts st h
    · rw [List.mem_singleton.mp h]
      rfl
  have hafter : ((World.init s).steps (sts ++ [.close shutdownErr])).s.running = false :=
    steps_flag_false (World.init s) (sts ++ [.close shutdownErr]) hsts2 hflag hnone
  clear hsame
  refine ⟨?_, ?_, ?_, ?_, ?_⟩
  · generalize ((World.init s).steps sts).s = s2 at hw hopt2 hsrv2
    obtain ⟨a1, a2, a3, a4, a5, a6, a7⟩ := s2
    simp only at hw hopt2 hsrv2
    subst hw hopt2 hsrv2
    cases shutdownErr <;> rcases a5 with _ | ⟨_, _ | _ | _ | _⟩ <;>
      exact ⟨_, rfl, rfl⟩
  · generalize ((World.init s).steps sts).s = s2 at hw hopt2 hsrv2
    obtain ⟨a1, a2, a3, a4, a5, a6, a7⟩ := s2
    simp only at hw hopt2 hsrv2
    subst hw hopt2 hsrv2
    cases shutdownErr <;> rcases a5 with _ | ⟨_, _ | _ | _ | _⟩ <;> rfl
  · simpa [Running] using hafter
  · intro he
    subst he
    simp [Close, hopt2, hsrv2]
  · intro b hret
    obtain ⟨b1, b2, b3, b4, b5, b6, b7⟩ := s
    simp only at hopt hsrv
    subst hopt hsrv
    cases shutdownErr <;> rcases b5 with _ | ⟨_, _ | _ | _ | _⟩ <;>
      first
        | rfl
        | exact absurd hret (by simp [Close])

theorem Close_leaves_flag_false_witness :
    (∃ s1, (Close (.ref ((World.init sampleServer).steps sampleLife).s)
        (.ref deadlineExceeded)).s = .ref s1 ∧ s1.running = false) ∧
    Running (Close (.ref ((World.init sampleServer).steps sampleLife).s)
      (.ref deadlineExceeded)).s = false ∧
    Running (.ref ((World.init sampleServer).steps
      (sampleLife ++ [.close (.ref deadlineExceeded)])).s) = false ∧
    ((Ptr.ref deadlineExceeded : error) = .nil →
      (Close (.ref ((World.init sampleServer).steps sampleLife).s)
        (.ref deadlineExceeded)).outcome = .returned) ∧
    ∀ b : Bool,
      (Close (.ref { sampleServer with running := b }) (.ref deadlineExceeded)).outcome
          = .returned →
      Running (Close (.ref { sampleServer with running := b }) (.ref deadlineExceeded)).s
          = false :=
  Close_leaves_flag_false sampleSetters sampleServer sampleLife (.ref deadlineExceeded)
    (by
      intro f hf
      simp only [sampleSetters, List.mem_cons, List.mem_singleton, List.not_mem_nil,
        or_false] at hf
      rcases hf with rfl | rfl | rfl
      · exact WithOption_keepsRunning _
      · exact WithEngine_keepsRunning _
      · exact WithLogger_keepsRunning _)
    (by decide) (by decide)

/-- C10: for every instance built by `New` with a logger, whatever its flag
is: when `Shutdown` returns a non-nil error `e`, the diagnostics `Close` emits
are exactly one entry, at `FatalLevel`, carrying `e`; when `Shutdown` returns
nil, `Close` emits none and returns. So a Fatal entry is emitted if and only
if the error is non-nil, and `FatalLevel` is the highest level. -/
theorem Close_fatal_iff (setters : List Setter) (s : HttpServer) (lg : zap.Logger) (b : Bool)
    (shutdownErr : error)
    (hnew : New setters = .ret (.ref s, .nil)) (hlg : s.logger = .ref lg) :
    (∀ e, shutdownErr = .ref e →
      (Close (.ref { s with running := b }) shutdownErr).events.filter Event.isLog
        = [.log lg .FatalLevel "listen and serve err" e]) ∧
    (shutdownErr = .nil →
      (Close (.ref { s with running := b }) shutdownErr).events.filter Event.isLog = [] ∧
      (Close (.ref { s with running := b }) shutdownErr).outcome = .returned) ∧
    ((∃ ev ∈ (Close (.ref { s with running := b }) shutdownErr).events, ev.isLog = true)
      ↔ shutdownErr ≠ .nil) ∧
    ∀ l : Level, l.rank ≤ Level.FatalLevel.rank := by
  obtain ⟨o, en, -, -, -, -, hopt, -, hsrv, -⟩ := New_ok_inv setters s .nil hnew
  refine ⟨?_, ?_, ?_, ?_⟩
  · intro e he
    subst he
    cases hh : lg.onFatal <;> simp [Close, hopt, hsrv, hlg, hh, Event.isLog]
  · intro he
    subst he
    simp [Close, hopt, hsrv, Event.isLog]
  · cases shutdownErr <;> cases hh : lg.onFatal <;>
      simp [Close, hopt, hsrv, hlg, hh, Event.isLog]
  · intro l
    cases l <;> decide

theorem Close_fatal_iff_witness :
    (∀ e, (Ptr.ref deadlineExceeded : error) = .ref e →
      (Close (.ref { sampleServer with running := false })
        (.ref deadlineExceeded)).events.filter Event.isLog
        = [.log sampleLogger .FatalLevel "listen and serve err" e]) ∧
    ((Ptr.ref deadlineExceeded : error) = .nil →
      (Close (.ref { sampleServer with running := false })
        (.ref deadlineExceeded)).events.filter Event.isLog = [] ∧
      (Close (.ref { sampleServer with running := false })
        (.ref deadlineExceeded)).outcome = .returned) ∧
    ((∃ ev ∈ (Close (.ref { sampleServer with running := false })
        (.ref deadlineExceeded)).events, ev.isLog = true)
      ↔ (Ptr.ref deadlineExceeded : error) ≠ .nil) ∧
    ∀ l : Level, l.rank ≤ Level.FatalLevel.rank :=
  Close_fatal_iff sampleSetters sampleServer sampleLogger false (.ref deadlineExceeded)
    (by decide) rfl

/-- C11 (counterexample): on the instance built from a full configuration, a
first `Close` returns; the second `Close` calls `Shutdown` on the underlying
server again. -/
theorem second_Close_calls_Shutdown :
    New sampleSetters = .ret (.ref sampleServer, .nil) ∧
    (Close (.ref sampleServer) .nil).outcome = .returned ∧
    (Close (Close (.ref sampleServer) .nil).s .nil).events
      = [.shutdown ⟨"127.0.0.1:0", .ref sampleEngine⟩ 2000000000] ∧
    ((World.init sampleServer).steps [.close .nil, .close .nil]).trace
      = [.shutdown ⟨"127.0.0.1:0", .ref sampleEngine⟩ 2000000000,
         .shutdown ⟨"127.0.0.1:0", .ref sampleEngine⟩ 2000000000] := by
  decide

/-- C11 (amended): for every instance built by `New` on which a first `Close`
has returned, leaving the instance `s1`: a second `Close` calls `Shutdown` on
the same server with the same timeout once more; when that call returns nil,
the second `Close` returns and leaves the instance as it was, with flag false
and the other fields those of the built instance; whatever that call returns,
the instance is left as it was. -/
theorem second_Close (setters : List Setter) (s : HttpServer) (b : Bool)
    (hnew : New setters = .ret (.ref s, .nil)) :
    ∃ o srv s1, s.option = .ref o ∧ s.server = .ref srv ∧
      Close (.ref { s with running := b }) .nil
        = ⟨.ref s1, [.shutdown srv o.ShutdownTimeout], .returned⟩ ∧
      Close (.ref s1) .nil = ⟨.ref s1, [.shutdown srv o.ShutdownTimeout], .returned⟩ ∧
      s1.running = false ∧ SameConfig s1 s ∧
      ∀ shutdownErr, (Close (.ref s1) shutdownErr).s = .ref s1 ∧
        (Close (.ref s1) shutdownErr).events.filter Event.isServerCall
          = [.shutdown srv o.ShutdownTimeout] := by
  obtain ⟨o, en, -, -, -, -, hopt, -, hsrv, -⟩ := New_ok_inv setters s .nil hnew
  refine ⟨o, _, { s with running := false }, hopt, hsrv, ?_, ?_, rfl,
    ⟨rfl, rfl, rfl, rfl, rfl, rfl⟩, ?_⟩
  · simp [Close, hopt, hsrv]
  · simp [Close, hopt, hsrv]
  · intro shutdownErr
    cases shutdownErr <;> rcases hlg : s.logger with _ | ⟨_, _ | _ | _ | _⟩ <;>
      simp [Close, hopt, hsrv, hlg, Event.isServerCall]

theorem second_Close_witness :
    ∃ o srv s1, sampleServer.option = .ref o ∧ sampleServer.server = .ref srv ∧
      Close (.ref { sampleServer with running := true }) .nil
        = ⟨.ref s1, [.shutdown srv o.ShutdownTimeout], .returned⟩ ∧
      Close (.ref s1) .nil = ⟨.ref s1, [.shutdown srv o.ShutdownTimeout], .returned⟩ ∧
      s1.running = false ∧ SameConfig s1 sampleServer ∧
      ∀ shutdownErr, (Close (.ref s1) shutdownErr).s = .ref s1 ∧
        (Close (.ref s1) shutdownErr).events.filter Event.isServerCall
          = [.shutdown srv o.ShutdownTimeout] :=
  second_Close sampleSetters sampleServer true (by decide)

/-- C12: `Close` on a nil instance returns, whatever a shutdown would have
returned: it makes no call (no `Shutdown`, no diagnostic) and leaves nil. -/
theorem Close_nil (shutdownErr : error) :
    Close .nil shutdownErr = ⟨.nil, [], .returned⟩ ∧
    (Close .nil shutdownErr).outcome = .returned ∧
    (Close .nil shutdownErr).events = [] := by
  cases shutdownErr <;> exact ⟨rfl, rfl, rfl⟩

/-- C13: `Running` returns false on a nil instance and on the zero-valued
instance; on every instance it returns the value of the liveness flag; it is a
read: the step of a call of `Running` leaves the world as it was. -/
theorem Running_reads_flag :
    Running .nil = false ∧ Running (.ref HttpServer.zero) = false ∧
    (∀ s : HttpServer, Running (.ref s) = s.running) ∧
    ∀ w : World, w.step .running = w := by
  refine ⟨rfl, rfl, fun _ => rfl, ?_⟩
  intro w
  unfold World.step
  cases w.status <;> rfl

/-- C16: for every instance built by `New`, whatever its flag is and whatever
`Shutdown` returns, the calls `Close` makes on the underlying server are
exactly one `Shutdown`, on the server made by `New`, with the timeout
`option.ShutdownTimeout` as it is (zero and negative values included). -/
theorem Close_one_Shutdown (setters : List Setter) (s : HttpServer) (b : Bool)
    (shutdownErr : error) (hnew : New setters = .ret (.ref s, .nil)) :
    ∃ o srv, s.option = .ref o ∧ s.server = .ref srv ∧
      (Close (.ref { s with running := b }) shutdownErr).events.filter Event.isServerCall
        = [.shutdown srv o.ShutdownTimeout] := by
  obtain ⟨o, en, -, -, -, -, hopt, -, hsrv, -⟩ := New_ok_inv setters s .nil hnew
  refine ⟨o, _, hopt, hsrv, ?_⟩
  cases shutdownErr <;> rcases hlg : s.logger with _ | ⟨_, _ | _ | _ | _⟩ <;>
    simp [Close, hopt, hsrv, hlg, Event.isServerCall]

theorem Close_one_Shutdown_witness :
    ∃ o srv, hastyServer.option = .ref o ∧ hastyServer.server = .ref srv ∧
      (Close (.ref { hastyServer with running := false })
        (.ref deadlineExceeded)).events.filter Event.isServerCall
        = [.shutdown srv o.ShutdownTimeout] :=
  Close_one_Shutdown hastySetters hastyServer false (.ref deadlineExceeded) (by decide)

end server

namespace server

/-! The whole lifecycle. -/

/-- C14: for every instance built by `New` and every sequence of `Run`,
goroutine, `Running` and `Close` steps, the option (so its Addr and its
ShutdownTimeout), the engine, the server made by `New` and the logger are the
ones `New` returned, as are the two channels: only the flag can differ. -/
theorem lifecycle_frame (setters : List Setter) (s : HttpServer) (sts : List Step)
    (hnew : New setters = .ret (.ref s, .nil)) :
    ((World.init s).steps sts).s.option = s.option ∧
    ((World.init s).steps sts).s.engine = s.engine ∧
    ((World.init s).steps sts).s.server = s.server ∧
    ((World.init s).steps sts).s.logger = s.logger ∧
    ((World.init s).steps sts).s.stop = s.stop ∧
    ((World.init s).steps sts).s.done = s.done ∧
    ((World.init s).steps sts).s = { s with running := ((World.init s).steps sts).s.running } ∧
    ∃ o e, ((World.init s).steps sts).s.option = .ref o ∧
      ((World.init s).steps sts).s.engine = .ref e ∧
      ((World.init s).steps sts).s.server = .ref ⟨o.Addr, .ref e⟩ := by
  obtain ⟨o, en, -, -, -, -, hopt, heng, hsrv, -⟩ := New_ok_inv setters s .nil hnew
  have hsame : SameConfig ((World.init s).steps sts).s s := steps_sameConfig (World.init s) sts
  obtain ⟨h1, h2, h3, h4, h5, h6⟩ := hsame
  exact ⟨h1, h3, h2, h4, h5, h6, SameConfig.eq_with ⟨h1, h2, h3, h4, h5, h6⟩, o, en,
    h1.trans hopt, h3.trans heng, h2.trans hsrv⟩

theorem lifecycle_frame_witness :
    ((World.init sampleServer).steps sampleLife).s.option = sampleServer.option ∧
    ((World.init sampleServer).steps sampleLife).s.engine = sampleServer.engine ∧
    ((World.init sampleServer).steps sampleLife).s.server = sampleServer.server ∧
    ((World.init sampleServer).steps sampleLife).s.logger = sampleServer.logger ∧
    ((World.init sampleServer).steps sampleLife).s.stop = sampleServer.stop ∧
    ((World.init sampleServer).steps sampleLife).s.done = sampleServer.done ∧
    ((World.init sampleServer).steps sampleLife).s
      = { sampleServer with running := ((World.init sampleServer).steps sampleLife).s.running } ∧
    ∃ o e, ((World.init sampleServer).steps sampleLife).s.option = .ref o ∧
      ((World.init sampleServer).steps sampleLife).s.engine = .ref e ∧
      ((World.init sampleServer).steps sampleLife).s.server = .ref ⟨o.Addr, .ref e⟩ :=
  lifecycle_frame sampleSetters sampleServer sampleLife (by decide)

/-- C17: for every instance built by `New` from setters that do not touch the
unexported flag, and every sequence of `Run`, goroutine, `Running` and `Close`
steps in which `ListenAndServe` never returns a nil error, the flag is false in
the state reached and `Running` returns false; the run path leaves the
instance as it is when `ListenAndServe` returns a non-nil error. -/
theorem flag_false_under_guarantee (setters : List Setter) (s : HttpServer) (sts : List Step)
    (hk : ∀ f ∈ setters, KeepsRunning f)
    (hnew : New setters = .ret (.ref s, .nil))
    (hsts : ∀ st ∈ sts, st.isNilReturn = false) :
    ((World.init s).steps sts).s.running = false ∧
    Running (.ref ((World.init s).steps sts).s) = false ∧
    ∀ (s1 : HttpServer) (e : Error), Run.resume s1 (.ref e) = s1 := by
  obtain ⟨o, en, -, -, -, -, -, -, -, hrun, -⟩ := New_ok_inv setters s .nil hnew
  have hflag : s.running = false := by
    rw [hrun, applySetters_keeps_running setters HttpServer.zero hk]
    rfl
  have h := steps_flag_false (World.init s) sts hsts hflag
    (by intro g hg; simp [World.init] at hg)
  exact ⟨h, h, fun _ _ => rfl⟩

theorem flag_false_under_guarantee_witness :
    ((World.init sampleServer).steps sampleLife).s.running = false ∧
    Running (.ref ((World.init sampleServer).steps sampleLife).s) = false ∧
    ∀ (s1 : HttpServer) (e : Error), Run.resume s1 (.ref e) = s1 :=
  flag_false_under_guarantee sampleSetters sampleServer sampleLife
    (by
      intro f hf
      simp only [sampleSetters, List.mem_cons, List.mem_singleton, List.not_mem_nil,
        or_false] at hf
      rcases hf with rfl | rfl | rfl
      · exact WithOption_keepsRunning _
      · exact WithEngine_keepsRunning _
      · exact WithLogger_keepsRunning _)
    (by decide) (by decide)

end server
